import Mathlib

/-!
Verification development for the rustpad collaborative-editing server
(`rustpad-server`).  The document engine (`src/rustpad.rs`), HTTP text
endpoint (`src/lib.rs`), persister loop (`src/lib.rs`) and identifier
validation (`src/util.rs`) are embedded shallowly below: text is a list of
Unicode code points (`List Char`), the hash maps keyed by connection id are
association lists, and fallible Rust functions return `Option`/`Except`-like
results.  The raw OT primitive (`OperationSeq` from the external
`operational-transform` crate) and the helper `transform_index` (module
`ot`, not present in the source tree) are modelled from the specification's
contract in §4.1.
-/

set_option maxRecDepth 4096

/-- Modelled from the spec: an `OpSeq` element is one of `retain(n)`,
`delete(n)`, `insert(s)`, with lengths counted in Unicode code points. -/
inductive Op where
  | retain (n : Nat)
  | delete (n : Nat)
  | insert (s : List Char)
  deriving DecidableEq, Repr

/-- Modelled from the spec: an operation sequence of the OT primitive. -/
abbrev OpSeq := List Op

/-- Modelled from the spec: `source_len(op)`, the length of text the
operation expects (retains and deletes consume input). -/
def baseLen (ops : OpSeq) : Nat :=
  ops.foldl
    (fun acc o =>
      match o with
      | Op.retain n => acc + n
      | Op.delete n => acc + n
      | Op.insert _ => acc)
    0

/-- Modelled from the spec: `target_len(op)`, the post-apply length. -/
def targetLen (ops : OpSeq) : Nat :=
  ops.foldl
    (fun acc o =>
      match o with
      | Op.retain n => acc + n
      | Op.delete _ => acc
      | Op.insert s => acc + s.length)
    0

/-- Builder appending a `retain`, skipping the no-op case, as the crate's
`OperationSeq::retain` does. -/
def addRetain (ops : OpSeq) (n : Nat) : OpSeq :=
  if n = 0 then ops else ops ++ [Op.retain n]

/-- Builder appending a `delete`, skipping the no-op case. -/
def addDelete (ops : OpSeq) (n : Nat) : OpSeq :=
  if n = 0 then ops else ops ++ [Op.delete n]

/-- Builder appending an `insert`, skipping the empty string, as the crate's
`OperationSeq::insert` does. -/
def addInsert (ops : OpSeq) (s : List Char) : OpSeq :=
  if s.isEmpty then ops else ops ++ [Op.insert s]

/-- Walk of an operation sequence over its input text. -/
def applyOps : OpSeq → List Char → List Char
  | [], _ => []
  | Op.retain n :: rest, s => s.take n ++ applyOps rest (s.drop n)
  | Op.delete n :: rest, s => applyOps rest (s.drop n)
  | Op.insert t :: rest, s => t ++ applyOps rest s

/-- Modelled from the spec: `apply(op, text)` fails iff
`source_len(op) != len(text)`, otherwise yields the rewritten text. -/
def applyOp (ops : OpSeq) (s : List Char) : Option (List Char) :=
  if baseLen ops = s.length then some (applyOps ops s) else none

/-- Loop body of the OT transform, modelled from the spec's §4.1 contract
(tie-break: the left argument's inserts sort before the right's); the fuel
argument bounds the number of loop iterations, which the caller sizes so
that it can never run out on reachable inputs. -/
def transformGo : Nat → OpSeq → OpSeq → OpSeq → OpSeq → Option (OpSeq × OpSeq)
  | 0, _, _, _, _ => none
  | _ + 1, [], [], aAcc, bAcc => some (aAcc, bAcc)
  | fuel + 1, Op.insert s :: as, bs, aAcc, bAcc =>
      transformGo fuel as bs (addInsert aAcc s) (addRetain bAcc s.length)
  | fuel + 1, as, Op.insert s :: bs, aAcc, bAcc =>
      transformGo fuel as bs (addRetain aAcc s.length) (addInsert bAcc s)
  | _ + 1, [], _, _, _ => none
  | _ + 1, _, [], _, _ => none
  | fuel + 1, Op.retain i :: as, Op.retain j :: bs, aAcc, bAcc =>
      let m := min i j
      transformGo fuel
        (if i - m = 0 then as else Op.retain (i - m) :: as)
        (if j - m = 0 then bs else Op.retain (j - m) :: bs)
        (addRetain aAcc m) (addRetain bAcc m)
  | fuel + 1, Op.delete i :: as, Op.delete j :: bs, aAcc, bAcc =>
      let m := min i j
      transformGo fuel
        (if i - m = 0 then as else Op.delete (i - m) :: as)
        (if j - m = 0 then bs else Op.delete (j - m) :: bs)
        aAcc bAcc
  | fuel + 1, Op.delete i :: as, Op.retain j :: bs, aAcc, bAcc =>
      let m := min i j
      transformGo fuel
        (if i - m = 0 then as else Op.delete (i - m) :: as)
        (if j - m = 0 then bs else Op.retain (j - m) :: bs)
        (addDelete aAcc m) bAcc
  | fuel + 1, Op.retain i :: as, Op.delete j :: bs, aAcc, bAcc =>
      let m := min i j
      transformGo fuel
        (if i - m = 0 then as else Op.retain (i - m) :: as)
        (if j - m = 0 then bs else Op.delete (j - m) :: bs)
        aAcc (addDelete bAcc m)

/-- Modelled from the spec: `transform(a, b) → (a', b')`, failing when the
two operations are not based on texts of the same length or misalign. -/
def OpSeq.transform (a b : OpSeq) : Option (OpSeq × OpSeq) :=
  if baseLen a = baseLen b then
    transformGo (a.length + b.length + 1) a b [] []
  else none

/-- Modelled from the spec: `transform_index` loop body — insertions at or
before the index shift it right, deletions strictly before it shift it
left, deletions spanning it clamp it to the deletion's left edge. -/
def transformIndexAux : OpSeq → Int → Int → Int
  | [], _, newIndex => newIndex
  | Op.retain n :: rest, index, newIndex =>
      if index - n < 0 then newIndex
      else transformIndexAux rest (index - n) newIndex
  | Op.insert s :: rest, index, newIndex =>
      transformIndexAux rest index (newIndex + s.length)
  | Op.delete n :: rest, index, newIndex =>
      if index - n < 0 then newIndex - min index n
      else transformIndexAux rest (index - n) (newIndex - min index n)

/-- Modelled from the spec: `transform_index(op, i)` moves a cursor index
through an operation (module `ot`, absent from the source tree). -/
def transformIndex (ops : OpSeq) (i : Nat) : Nat :=
  (transformIndexAux ops i i).toNat

/-- Sequential application of a log of operations, starting from a given
text.  Modelled from the spec: `compose` is characterized by
`apply(compose(a, b), x) == apply(b, apply(a, x))`, so applying the
composition of a log to a text is left-to-right sequential application. -/
def applyLog : List OpSeq → List Char → Option (List Char)
  | [], t => some t
  | op :: rest, t =>
      match applyOp op t with
      | none => none
      | some t2 => applyLog rest t2

/-- Embeds `DocumentMeta` of `src/rustpad.rs` (the engine revision of the source,
which carries `limited : bool`). -/
structure DocumentMeta where
  language : String
  limited : Bool
  deriving DecidableEq, Repr

/-- Embeds `PersistedDocument` as consumed by the engine in `src/rustpad.rs`. -/
structure PersistedDocument where
  meta : DocumentMeta
  text : List Char
  deriving DecidableEq, Repr

/-- Embeds `UserOperation` of `src/rustpad.rs`: an operation tagged with the
connection id that produced it (`u64` modelled as `Nat`). -/
structure UserOperation where
  id : Nat
  operation : OpSeq
  deriving DecidableEq, Repr

/-- Embeds `UserInfo` of `src/rustpad.rs`. -/
structure UserInfo where
  name : String
  hue : Nat
  admin : Bool
  deriving DecidableEq, Repr

/-- Embeds `CursorData` of `src/rustpad.rs`: positions in code-point units. -/
structure CursorData where
  cursors : List Nat
  selections : List (Nat × Nat)
  deriving DecidableEq, Repr

/-- Embeds `ServerMsg` of `src/rustpad.rs` (lines 104–119).  Disconnects are
signalled by `UserInfo` with `info = none`; the enum has no separate
disconnect variant. -/
inductive ServerMsg where
  | Identity (id : Nat) (info : Option UserInfo)
  | History (start : Nat) (operations : List UserOperation)
  | Meta (language : String) (limited : Bool)
  | UserInfo (id : Nat) (info : Option UserInfo)
  | UserCursor (id : Nat) (data : CursorData)
  deriving DecidableEq, Repr

/-- The serde external tag under which each `ServerMsg` variant is
serialized on the wire (the variant's name). -/
def ServerMsg.tag : ServerMsg → String
  | ServerMsg.Identity _ _ => "Identity"
  | ServerMsg.History _ _ => "History"
  | ServerMsg.Meta _ _ => "Meta"
  | ServerMsg.UserInfo _ _ => "UserInfo"
  | ServerMsg.UserCursor _ _ => "UserCursor"

/-- Insert-or-replace into an association map keyed by connection id,
modelling `HashMap::insert`. -/
def mapInsert {α : Type} (m : List (Nat × α)) (k : Nat) (v : α) : List (Nat × α) :=
  (k, v) :: m.filter (fun p => p.1 != k)

/-- Removal from an association map, modelling `HashMap::remove`. -/
def mapRemove {α : Type} (m : List (Nat × α)) (k : Nat) : List (Nat × α) :=
  m.filter (fun p => p.1 != k)

/-- Lookup in an association map, modelling `HashMap::get` (keys are kept
unique by `mapInsert`/`mapRemove`). -/
def mapLookup {α : Type} : List (Nat × α) → Nat → Option α
  | [], _ => none
  | p :: rest, k => if p.1 = k then some p.2 else mapLookup rest k

/-- The lock-protected `State` of `src/rustpad.rs`. -/
structure State where
  operations : List UserOperation
  text : List Char
  meta : DocumentMeta
  users : List (Nat × UserInfo)
  cursors : List (Nat × CursorData)
  dirty : Bool
  deriving DecidableEq, Repr

/-- Embeds `State::default()` of `src/rustpad.rs`. -/
def State.default : State :=
  { operations := []
    text := []
    meta := { language := "markdown", limited := false }
    users := []
    cursors := []
    dirty := false }

/-- The value `u64::MAX`, the sentinel id of the initial operation pushed by
`Rustpad::load`. -/
def u64Max : Nat := 18446744073709551615

/-- The single initial operation built by `Rustpad::load`:
`OperationSeq::default()` followed by `insert(&document.text)`. -/
def mkInsertOp (t : List Char) : OpSeq := addInsert [] t

/-- Embeds `Rustpad::load` of `src/rustpad.rs` (lines 142–157): start from the
default state, overwrite `text` and `meta` from the snapshot, and push one
sentinel `UserOperation` inserting the whole text. -/
def Rustpad.load (d : PersistedDocument) : State :=
  { State.default with
    text := d.text
    meta := d.meta
    operations := [{ id := u64Max, operation := mkInsertOp d.text }] }

/-- Embeds `Rustpad::snapshot` of `src/rustpad.rs`: the current text and meta. -/
def Rustpad.snapshot (s : State) : PersistedDocument :=
  { text := s.text, meta := s.meta }

/-- Embeds `Rustpad::revision`: the length of the operation log. -/
def Rustpad.revision (s : State) : Nat := s.operations.length

/-- Embeds `Rustpad::dirty_snapshot` of `src/rustpad.rs` (lines 199–214): in one
critical section, return the snapshot iff `dirty` and clear the flag. -/
def dirtySnapshot (s : State) : Option PersistedDocument × State :=
  if s.dirty then
    (some { text := s.text, meta := s.meta }, { s with dirty := false })
  else (none, s)

/-- Error sites of `Rustpad::apply_edit`, one per `bail!`/`?` in the
source. -/
inductive EditError where
  | revisionAhead
  | transformFailed
  | targetTooLarge
  | applyFailed
  deriving DecidableEq, Repr

/-- The transform loop of `apply_edit`: fold the incoming operation through
every logged operation at or after the client's revision, keeping the left
component, failing fast. -/
def transformThrough (op : OpSeq) (history : List UserOperation) : Option OpSeq :=
  history.foldlM (fun acc h => Option.map Prod.fst (OpSeq.transform acc h.operation)) op

/-- Cursor remapping performed by `apply_edit` on every stored
`CursorData`. -/
def transformCursors (op : OpSeq) (d : CursorData) : CursorData :=
  { cursors := d.cursors.map (fun c => transformIndex op c)
    selections := d.selections.map (fun p => (transformIndex op p.1, transformIndex op p.2)) }

/-- Embeds `Rustpad::apply_edit` of `src/rustpad.rs` (lines 404–438), embedded as
a state transformer that mirrors the source's mutation order: every error
exit happens before any field of the state is written, so the second
component equals the input state on error. -/
def applyEditT (s : State) (id : Nat) (revision : Nat) (operation : OpSeq) :
    Option EditError × State :=
  if s.operations.length < revision then (some EditError.revisionAhead, s)
  else
    match transformThrough operation (s.operations.drop revision) with
    | none => (some EditError.transformFailed, s)
    | some op =>
      if 256 * 1024 < targetLen op then (some EditError.targetTooLarge, s)
      else
        match applyOp op s.text with
        | none => (some EditError.applyFailed, s)
        | some newText =>
          (none,
            { s with
              cursors := s.cursors.map (fun p => (p.1, transformCursors op p.2))
              operations := s.operations ++ [{ id := id, operation := op }]
              text := newText
              dirty := true })

/-- Embeds the `ClientMsg::SetMeta` handling of `src/rustpad.rs` (lines 360–377):
overwrite whichever fields are present, set `dirty`, and broadcast the
(possibly unchanged) metadata. -/
def handleSetMeta (s : State) (language : Option String) (limited : Option Bool) :
    State × ServerMsg :=
  let s1 :=
    match language with
    | some l => { s with meta := { s.meta with language := l } }
    | none => s
  let lang := s1.meta.language
  let s2 :=
    match limited with
    | some b => { s1 with meta := { s1.meta with limited := b } }
    | none => s1
  let lim := s2.meta.limited
  ({ s2 with dirty := true }, ServerMsg.Meta lang lim)

/-- The identity fix-up of `ClientMsg::ClientInfo` handling
(`src/rustpad.rs` lines 378–394): the `admin` flag always comes from the
authenticated user when one exists, the name is pinned to the
authenticated name only for admins, and the hue is wrapped modulo 360. -/
def sanitizeInfo (info : UserInfo) (user : Option UserInfo) : UserInfo :=
  let i :=
    match user with
    | some u =>
      let i0 := { info with admin := u.admin }
      if i0.admin then { i0 with name := u.name } else i0
    | none => info
  { i with hue := i.hue % 360 }

/-- Embeds the `ClientMsg::ClientInfo` handling: store the sanitized record under the
connection id and broadcast the same record. -/
def handleClientInfo (s : State) (id : Nat) (info : UserInfo) (user : Option UserInfo) :
    State × ServerMsg :=
  let i := sanitizeInfo info user
  ({ s with users := mapInsert s.users id i }, ServerMsg.UserInfo id (some i))

/-- Embeds the `ClientMsg::CursorData` handling of `src/rustpad.rs` (lines 395–399). -/
def handleCursorData (s : State) (id : Nat) (data : CursorData) : State × ServerMsg :=
  ({ s with cursors := mapInsert s.cursors id data }, ServerMsg.UserCursor id data)

/-- The teardown block of `Rustpad::on_connection` (`src/rustpad.rs` lines
168–176): remove the connection from `users` and `cursors` and broadcast
`UserInfo { id, info: None }`. -/
def connectionTeardown (s : State) (id : Nat) : State × ServerMsg :=
  ({ s with users := mapRemove s.users id, cursors := mapRemove s.cursors id },
    ServerMsg.UserInfo id none)

/-- Engine states reachable from `load` of some snapshot by any sequence of
handled client messages, accepted edits, teardowns and dirty-snapshot
calls. -/
inductive Reachable : State → Prop where
  | loaded (d : PersistedDocument) : Reachable (Rustpad.load d)
  | edit {s : State} (id rev : Nat) (op : OpSeq) (h : Reachable s)
      (hs : (applyEditT s id rev op).1 = none) :
      Reachable (applyEditT s id rev op).2
  | setMeta {s : State} (language : Option String) (limited : Option Bool)
      (h : Reachable s) : Reachable (handleSetMeta s language limited).1
  | clientInfo {s : State} (id : Nat) (info : UserInfo) (user : Option UserInfo)
      (h : Reachable s) : Reachable (handleClientInfo s id info user).1
  | cursorData {s : State} (id : Nat) (data : CursorData) (h : Reachable s) :
      Reachable (handleCursorData s id data).1
  | closeConn {s : State} (id : Nat) (h : Reachable s) :
      Reachable (connectionTeardown s id).1
  | dirtySnap {s : State} (h : Reachable s) : Reachable (dirtySnapshot s).2

/-- Modelled from the spec: the `Visibility` enum used by the newer
revision of the engine (`src/lib.rs` and `src/database.rs` import it from
`crate::rustpad`, whose matching revision is absent from the tree),
ordered `Private < Internal < Public`. -/
inductive Visibility where
  | Private
  | Internal
  | Public
  deriving DecidableEq, Repr

/-- Document metadata of the `Visibility`-based revision, as used by
`src/database.rs` and `src/lib.rs`. -/
structure DocumentMetaV where
  language : String
  visibility : Visibility
  deriving DecidableEq, Repr

/-- Embeds `PersistedDocument` of the `Visibility`-based revision. -/
structure PersistedDocumentV where
  meta : DocumentMetaV
  text : List Char
  deriving DecidableEq, Repr

/-- Embeds `auth::User` of `src/auth.rs`: the authenticated user record behind a
valid session. -/
structure AuthUser where
  name : String
  hue : Nat
  admin : Bool
  deriving DecidableEq, Repr

/-- The response shapes `text_handler` of `src/lib.rs` can produce: a 403,
the text body with a `Language` header, or the empty 200 for a document
that exists nowhere. -/
inductive TextResponse where
  | forbidden
  | content (language : String) (text : List Char)
  | emptyOk
  deriving DecidableEq, Repr

/-- Embeds `text_handler` of `src/lib.rs` (lines 358–389), as a function of the
resolved document (live snapshot or database load) and of the user record
resolved from the request's session (`none` covers both a missing session
and an expired one). -/
def textHandler (document : Option PersistedDocumentV) (user : Option AuthUser) :
    TextResponse :=
  match document with
  | some d =>
    if d.meta.visibility ≠ Visibility.Public then
      match user with
      | some u =>
        if d.meta.visibility = Visibility.Internal || u.admin then
          TextResponse.content d.meta.language d.text
        else TextResponse.forbidden
      | none => TextResponse.forbidden
    else TextResponse.content d.meta.language d.text
  | none => TextResponse.emptyOk

/-- Embeds `Identifier::MAX_LEN` of `src/util.rs`. -/
def identifierMaxLen : Nat := 64

/-- Embeds `Identifier::valid_char` of `src/util.rs`:
`c.is_ascii_alphanumeric() || matches!(c, '-' | '_' | ' ')`, written on
code-point values (48–57 is `0`–`9`, 65–90 is `A`–`Z`, 97–122 is `a`–`z`,
45 is `-`, 95 is `_`, 32 is the space). -/
def validChar (c : Char) : Bool :=
  (48 ≤ c.toNat && c.toNat ≤ 57) || (65 ≤ c.toNat && c.toNat ≤ 90) ||
    (97 ≤ c.toNat && c.toNat ≤ 122) || c.toNat == 45 || c.toNat == 95 || c.toNat == 32

/-- Size in UTF-8 bytes of one code point, used to model Rust's byte-based
`s.len()`. -/
def charUtf8Size (c : Char) : Nat :=
  if c.toNat < 128 then 1
  else if c.toNat < 2048 then 2
  else if c.toNat < 65536 then 3
  else 4

/-- Rust's `str::len`: the UTF-8 byte length of the string. -/
def byteLen (s : List Char) : Nat := (s.map charUtf8Size).sum

/-- Embeds `Identifier::from_str` of `src/util.rs` (lines 54–67): reject inputs
longer than 64 bytes or containing an invalid character, otherwise
normalize into a right-zero-padded 64-byte buffer.  The byte copy is
modelled by `Char.toNat` per character, which is byte-exact because every
accepted character is ASCII. -/
def Identifier.fromStr (s : List Char) : Option (List Nat) :=
  if identifierMaxLen < byteLen s then none
  else if !s.all validChar then none
  else some (s.map Char.toNat ++ List.replicate (identifierMaxLen - s.length) 0)

/-- Embeds `PERSIST_INTERVAL` of `src/lib.rs`, in milliseconds. -/
def PERSIST_INTERVAL_MS : Nat := 10000

/-- Embeds `PERSIST_INTERVAL_JITTER` of `src/lib.rs`, in milliseconds. -/
def PERSIST_INTERVAL_JITTER_MS : Nat := 6000

/-- One persister iteration's sleep in milliseconds (`persister` of
`src/lib.rs`, lines 434–476), as a function of the collected
`(id, dirty_snapshot())` list and of the random jitter draw
(`random_range(0..PERSIST_INTERVAL_JITTER.as_millis())`): the jitter is
extended by one `PERSIST_INTERVAL` exactly when the collected list is
empty, i.e. when the document map held no entries at all. -/
def persisterSleepMs (toPersist : List (List Nat × Option PersistedDocumentV))
    (jitter : Nat) : Nat :=
  let jitter2 := if toPersist.isEmpty then jitter + PERSIST_INTERVAL_MS else jitter
  PERSIST_INTERVAL_MS + jitter2

/-- A concrete snapshot used by witnesses. -/
def docHello : PersistedDocument :=
  { meta := { language := "markdown", limited := false }
    text := ['h', 'e', 'l', 'l', 'o'] }

/-- A concrete 64-byte identifier buffer used by counterexamples. -/
def idZeroBuf : List Nat := List.replicate 64 0

/-- A concrete public document used by witnesses of the text endpoint. -/
def docPublicV : PersistedDocumentV :=
  { meta := { language := "markdown", visibility := Visibility.Public }
    text := ['h', 'i'] }

/-- A concrete state holding one live user and one cursor, used by
teardown witnesses. -/
def statePeopled : State :=
  { State.default with
    users := [(7, { name := "bob", hue := 10, admin := false }),
              (3, { name := "eve", hue := 20, admin := false })]
    cursors := [(7, { cursors := [1], selections := [] })] }

/- ===================== Theorems ===================== -/

theorem mapLookup_mapInsert_self {α : Type} (m : List (Nat × α)) (k : Nat) (v : α) :
    mapLookup (mapInsert m k v) k = some v := by
  simp [mapLookup, mapInsert]

theorem mapLookup_mapRemove_self {α : Type} (m : List (Nat × α)) (k : Nat) :
    mapLookup (mapRemove m k) k = none := by
  induction m with
  | nil => rfl
  | cons p rest ih =>
    by_cases h : p.1 = k
    · simpa [mapRemove, List.filter_cons, h] using ih
    · simpa [mapRemove, mapLookup, List.filter_cons, h] using ih

theorem mapLookup_mapRemove_ne {α : Type} (m : List (Nat × α)) (k j : Nat) (h : j ≠ k) :
    mapLookup (mapRemove m k) j = mapLookup m j := by
  induction m with
  | nil => rfl
  | cons p rest ih =>
    by_cases hp : p.1 = k
    · have hpj : ¬p.1 = j := by omega
      simpa [mapRemove, mapLookup, List.filter_cons, hp, hpj, h, Ne.symm h] using ih
    · by_cases hj : p.1 = j
      · simp [mapRemove, mapLookup, List.filter_cons, hp, hj, h, Ne.symm h]
      · simpa [mapRemove, mapLookup, List.filter_cons, hp, hj, h, Ne.symm h] using ih

theorem applyLog_append (l : List OpSeq) (op : OpSeq) (t : List Char) :
    applyLog (l ++ [op]) t = Option.bind (applyLog l t) (fun u => applyOp op u) := by
  induction l generalizing t with
  | nil =>
    simp only [List.nil_append, applyLog]
    cases hap : applyOp op t <;> simp [applyLog, hap]
  | cons a rest ih =>
    simp only [List.cons_append, applyLog]
    cases applyOp a t with
    | none => rfl
    | some t2 => exact ih t2

theorem applyOp_mkInsertOp (t : List Char) : applyOp (mkInsertOp t) [] = some t := by
  cases t with
  | nil => rfl
  | cons c cs => simp [mkInsertOp, addInsert, applyOp, baseLen, applyOps]

theorem applyEditT_success {s : State} {id rev : Nat} {op : OpSeq}
    (h : (applyEditT s id rev op).1 = none) :
    ∃ op2 newText, applyOp op2 s.text = some newText ∧
      (applyEditT s id rev op).2.operations =
        s.operations ++ [{ id := id, operation := op2 }] ∧
      (applyEditT s id rev op).2.text = newText := by
  unfold applyEditT at *
  by_cases h1 : s.operations.length < rev
  · simp [h1] at h
  · cases htr : transformThrough op (s.operations.drop rev) with
    | none => simp [h1, htr] at h
    | some op2 =>
      by_cases h3 : 256 * 1024 < targetLen op2
      · simp [h1, htr, h3] at h
      · cases hap : applyOp op2 s.text with
        | none => simp [h1, htr, h3, hap] at h
        | some t =>
          refine ⟨op2, t, hap, ?_, ?_⟩ <;> simp [h1, htr, h3, hap]

theorem handleSetMeta_frame (s : State) (l : Option String) (b : Option Bool) :
    (handleSetMeta s l b).1.operations = s.operations ∧
      (handleSetMeta s l b).1.text = s.text := by
  cases l <;> cases b <;> exact ⟨rfl, rfl⟩

theorem dirtySnapshot_frame (s : State) :
    (dirtySnapshot s).2.operations = s.operations ∧
      (dirtySnapshot s).2.text = s.text := by
  by_cases h : s.dirty <;> simp [dirtySnapshot, h]

/-- Claim C1: every engine state reachable by `load` followed by accepted
operations satisfies the text/log coherence invariant — applying the
composed operation log (modelled by its defining equation as sequential
application) to the empty text reproduces the `text` field. -/
theorem text_log_coherence (s : State) (h : Reachable s) :
    applyLog (s.operations.map UserOperation.operation) [] = some s.text := by
  induction h with
  | loaded d =>
    simp [Rustpad.load, applyLog, applyOp_mkInsertOp]
  | edit id rev op h hs ih =>
    obtain ⟨op2, newText, hap, hops, htext⟩ := applyEditT_success hs
    rw [hops, htext, List.map_append, List.map_cons, List.map_nil, applyLog_append, ih]
    simpa using hap
  | setMeta language limited h ih =>
    rw [(handleSetMeta_frame _ language limited).1, (handleSetMeta_frame _ language limited).2]
    exact ih
  | clientInfo id info user h ih => exact ih
  | cursorData id data h ih => exact ih
  | closeConn id h ih => exact ih
  | dirtySnap h ih =>
    rw [(dirtySnapshot_frame _).1, (dirtySnapshot_frame _).2]
    exact ih

theorem text_log_coherence_witness :
    applyLog ((Rustpad.load docHello).operations.map UserOperation.operation) [] =
      some (Rustpad.load docHello).text :=
  text_log_coherence (Rustpad.load docHello) (Reachable.loaded docHello)

/-- Claim C2: `apply_edit` fails exactly when the client revision exceeds
the log length, the transform against the concurrent history fails, the
transformed operation's target length exceeds 256 KiB, or applying the
transformed operation to the current text fails; and on failure the whole
engine state is returned unchanged. -/
theorem apply_edit_raises_iff_atomic (s : State) (id rev : Nat) (op : OpSeq) :
    ((applyEditT s id rev op).1.isSome = true ↔
      (s.operations.length < rev ∨
        transformThrough op (s.operations.drop rev) = none ∨
        ∃ op2, transformThrough op (s.operations.drop rev) = some op2 ∧
          (256 * 1024 < targetLen op2 ∨ applyOp op2 s.text = none))) ∧
    ((applyEditT s id rev op).1.isSome = true → (applyEditT s id rev op).2 = s) := by
  unfold applyEditT
  by_cases h1 : s.operations.length < rev
  · simp [h1]
  · cases htr : transformThrough op (s.operations.drop rev) with
    | none => simp [h1, htr]
    | some op2 =>
      by_cases h3 : 256 * 1024 < targetLen op2
      · simp [h1, htr, h3]
      · cases hap : applyOp op2 s.text with
        | none => simp [h1, htr, h3, hap]
        | some t => simp [h1, htr, h3, hap]

theorem apply_edit_raises_witness :
    (applyEditT State.default 0 1 []).1.isSome = true ∧
    (applyEditT State.default 0 1 []).2 = State.default := by
  have h := apply_edit_raises_iff_atomic State.default 0 1 []
  have h1 : (applyEditT State.default 0 1 []).1.isSome = true :=
    h.1.mpr (Or.inl (by decide))
  exact ⟨h1, h.2 h1⟩

/-- Claim C4: `load` yields a log holding exactly one sentinel operation
inserting the snapshot text, hence revision 1, and `snapshot` of the
loaded engine returns the original document. -/
theorem load_snapshot_roundtrip (d : PersistedDocument) :
    (Rustpad.load d).operations = [{ id := u64Max, operation := mkInsertOp d.text }] ∧
    Rustpad.revision (Rustpad.load d) = 1 ∧
    Rustpad.snapshot (Rustpad.load d) = d := by
  refine ⟨rfl, rfl, ?_⟩
  cases d
  rfl

/-- Claim C5: `dirty_snapshot` returns the current snapshot iff the dirty
flag is set, clears the flag in the same critical section, and a second
call with no intervening mutation returns `none`. -/
theorem dirty_snapshot_spec (s : State) :
    ((dirtySnapshot s).1 = some (Rustpad.snapshot s) ↔ s.dirty = true) ∧
    ((dirtySnapshot s).1 = none ↔ s.dirty = false) ∧
    (dirtySnapshot s).2 = { s with dirty := false } ∧
    (dirtySnapshot (dirtySnapshot s).2).1 = none := by
  by_cases h : s.dirty
  · simp [dirtySnapshot, h, Rustpad.snapshot]
  · have h0 : s.dirty = false := by simpa using h
    cases s
    simp_all [dirtySnapshot, Rustpad.snapshot]

theorem dirty_snapshot_spec_witness :
    (dirtySnapshot { State.default with dirty := true }).1 =
      some (Rustpad.snapshot { State.default with dirty := true }) ∧
    (dirtySnapshot (dirtySnapshot { State.default with dirty := true }).2).1 = none :=
  ⟨(dirty_snapshot_spec { State.default with dirty := true }).1.mpr rfl,
    (dirty_snapshot_spec { State.default with dirty := true }).2.2.2⟩

/-- Claim C10: handling `SetMeta` with both fields absent changes neither
the metadata, the text, the log, the users map nor the cursors map, yet
unconditionally sets the dirty flag and broadcasts the unchanged
metadata. -/
theorem set_meta_empty_frame (s : State) :
    (handleSetMeta s none none).1.meta = s.meta ∧
    (handleSetMeta s none none).1.text = s.text ∧
    (handleSetMeta s none none).1.operations = s.operations ∧
    (handleSetMeta s none none).1.users = s.users ∧
    (handleSetMeta s none none).1.cursors = s.cursors ∧
    (handleSetMeta s none none).1.dirty = true ∧
    (handleSetMeta s none none).2 = ServerMsg.Meta s.meta.language s.meta.limited :=
  ⟨rfl, rfl, rfl, rfl, rfl, rfl, rfl⟩

/-- Claim C3 counterexample: an authenticated non-admin connection
(`user = some ⟨"alice", 0, false⟩`) submitting the name `"bob"` gets
`"bob"` stored and broadcast, not the authenticated name `"alice"`. -/
theorem client_info_spoof_counterexample :
    (handleClientInfo State.default 0 { name := "bob", hue := 10, admin := false }
        (some { name := "alice", hue := 0, admin := false })).2 =
      ServerMsg.UserInfo 0 (some { name := "bob", hue := 10, admin := false }) ∧
    ("bob" : String) ≠ "alice" := by
  exact ⟨rfl, by decide⟩

/-- Claim C3 (amended): on a connection with an authenticated user the
stored and broadcast record always carries the authenticated `admin` flag,
and the name is pinned to the authenticated name exactly when that user is
an admin; an authenticated non-admin keeps the submitted name. -/
theorem client_info_authenticated_admin (s : State) (id : Nat) (info u : UserInfo) :
    (sanitizeInfo info (some u)).admin = u.admin ∧
    (u.admin = true → (sanitizeInfo info (some u)).name = u.name) ∧
    (u.admin = false → (sanitizeInfo info (some u)).name = info.name) ∧
    mapLookup (handleClientInfo s id info (some u)).1.users id =
      some (sanitizeInfo info (some u)) ∧
    (handleClientInfo s id info (some u)).2 =
      ServerMsg.UserInfo id (some (sanitizeInfo info (some u))) := by
  refine ⟨?_, ?_, ?_, mapLookup_mapInsert_self _ _ _, rfl⟩ <;>
    by_cases h : u.admin <;> simp [sanitizeInfo, h]

theorem client_info_authenticated_admin_witness :
    (sanitizeInfo { name := "x", hue := 5, admin := false }
        (some { name := "adm", hue := 0, admin := true })).name = "adm" ∧
    (sanitizeInfo { name := "x", hue := 5, admin := false }
        (some { name := "adm", hue := 0, admin := true })).admin = true :=
  ⟨(client_info_authenticated_admin State.default 1
      { name := "x", hue := 5, admin := false }
      { name := "adm", hue := 0, admin := true }).2.1 rfl,
    (client_info_authenticated_admin State.default 1
      { name := "x", hue := 5, admin := false }
      { name := "adm", hue := 0, admin := true }).1⟩

/-- Claim C6: the text endpoint answers with the current text and a
`Language` header for `Public` documents unconditionally, for `Internal`
documents exactly when the request carries a valid authenticated session,
for `Private` documents exactly when the authenticated user is an admin,
and every other request on a non-public document gets 403. -/
theorem text_handler_access (d : PersistedDocumentV) (user : Option AuthUser) :
    (textHandler (some d) user = TextResponse.forbidden ∨
      textHandler (some d) user = TextResponse.content d.meta.language d.text) ∧
    (textHandler (some d) user = TextResponse.content d.meta.language d.text ↔
      (d.meta.visibility = Visibility.Public ∨
        ∃ u, user = some u ∧
          (d.meta.visibility = Visibility.Internal ∨ u.admin = true))) := by
  cases user with
  | none => cases h : d.meta.visibility <;> simp [textHandler, h]
  | some u =>
    cases h : d.meta.visibility <;> by_cases ha : u.admin <;>
      simp [textHandler, h, ha]

theorem text_handler_access_witness :
    textHandler (some docPublicV) none =
      TextResponse.content docPublicV.meta.language docPublicV.text :=
  (text_handler_access docPublicV none).2.mpr (Or.inl rfl)

/-- Claim C7 counterexample: the message broadcast on teardown is the
`UserInfo` variant with `info = none` — its wire tag is `"UserInfo"`, not
`"UserDisconnect"`; the `ServerMsg` enum of the source has no
`UserDisconnect` variant at all. -/
theorem user_disconnect_counterexample :
    (connectionTeardown State.default 7).2.tag = "UserInfo" ∧
    (connectionTeardown State.default 7).2.tag ≠ "UserDisconnect" := by
  exact ⟨rfl, by decide⟩

/-- Claim C7 (amended): on teardown the engine removes the connection id
from both `users` and `cursors`, leaves every other entry and all other
state untouched, and broadcasts `UserInfo { id, info: None }` to signal
the disconnect. -/
theorem close_connection_spec (s : State) (id : Nat) :
    mapLookup (connectionTeardown s id).1.users id = none ∧
    mapLookup (connectionTeardown s id).1.cursors id = none ∧
    (∀ j, j ≠ id → mapLookup (connectionTeardown s id).1.users j = mapLookup s.users j) ∧
    (∀ j, j ≠ id → mapLookup (connectionTeardown s id).1.cursors j = mapLookup s.cursors j) ∧
    (connectionTeardown s id).1.text = s.text ∧
    (connectionTeardown s id).1.operations = s.operations ∧
    (connectionTeardown s id).1.meta = s.meta ∧
    (connectionTeardown s id).1.dirty = s.dirty ∧
    (connectionTeardown s id).2 = ServerMsg.UserInfo id none :=
  ⟨mapLookup_mapRemove_self _ _, mapLookup_mapRemove_self _ _,
    fun j hj => mapLookup_mapRemove_ne _ _ j hj,
    fun j hj => mapLookup_mapRemove_ne _ _ j hj,
    rfl, rfl, rfl, rfl, rfl⟩

theorem close_connection_spec_witness :
    mapLookup (connectionTeardown statePeopled 7).1.users 7 = none ∧
    mapLookup (connectionTeardown statePeopled 7).1.users 3 =
      mapLookup statePeopled.users 3 :=
  ⟨(close_connection_spec statePeopled 7).1,
    (close_connection_spec statePeopled 7).2.2.1 3 (by decide)⟩

/-- Claim C8 counterexample: `Identifier::from_str` accepts the empty
string (its length check only rejects over-length inputs), yielding the
all-zero 64-byte buffer. -/
theorem identifier_empty_accepted_counterexample :
    Identifier.fromStr [] = some idZeroBuf ∧ Identifier.fromStr [] ≠ none := by
  exact ⟨rfl, by simp [Identifier.fromStr, byteLen, identifierMaxLen]⟩

theorem charUtf8Size_pos (c : Char) : 1 ≤ charUtf8Size c := by
  unfold charUtf8Size
  split <;> [omega; skip]
  split <;> [omega; skip]
  split <;> omega

theorem charUtf8Size_of_validChar (c : Char) (h : validChar c = true) :
    charUtf8Size c = 1 := by
  have hlt : c.toNat < 128 := by
    simp only [validChar, Bool.or_eq_true, Bool.and_eq_true, decide_eq_true_eq,
      beq_iff_eq] at h
    omega
  simp [charUtf8Size, hlt]

theorem length_le_byteLen (s : List Char) : s.length ≤ byteLen s := by
  induction s with
  | nil => simp [byteLen]
  | cons c cs ih =>
    have := charUtf8Size_pos c
    simp only [byteLen, List.map_cons, List.sum_cons, List.length_cons] at *
    omega

/-- Claim C8 (amended): `Identifier::from_str` accepts exactly the strings
of 0 to 64 bytes all of whose characters are ASCII alphanumeric, `-`, `_`
or space (the empty string included), normalizing accepted inputs to a
right-zero-padded 64-byte buffer. -/
theorem identifier_accepts_iff (s : List Char) :
    ((Identifier.fromStr s).isSome = true ↔
      (byteLen s ≤ identifierMaxLen ∧ s.all validChar = true)) ∧
    (∀ b, Identifier.fromStr s = some b →
      b = s.map Char.toNat ++ List.replicate (identifierMaxLen - s.length) 0 ∧
      b.length = identifierMaxLen) := by
  constructor
  · constructor
    · intro h
      unfold Identifier.fromStr at h
      by_cases h1 : identifierMaxLen < byteLen s
      · simp [h1] at h
      · by_cases h2 : s.all validChar
        · exact ⟨by omega, h2⟩
        · simp [h1, h2] at h
    · rintro ⟨h1, h2⟩
      unfold Identifier.fromStr
      simp [Nat.not_lt.mpr h1, h2]
  · intro b hb
    unfold Identifier.fromStr at hb
    by_cases h1 : identifierMaxLen < byteLen s
    · simp [h1] at hb
    · by_cases h2 : s.all validChar
      · have hb2 : s.map Char.toNat ++ List.replicate (identifierMaxLen - s.length) 0 = b := by
          simpa [h1, h2] using hb
        have hlen : s.length ≤ identifierMaxLen :=
          le_trans (length_le_byteLen s) (by omega)
        constructor
        · exact hb2.symm
        · rw [← hb2]
          simp only [List.length_append, List.length_map, List.length_replicate]
          omega
      · simp [h1, h2] at hb

theorem identifier_accepts_iff_witness :
    (Identifier.fromStr ['a', 'b']).isSome = true :=
  (identifier_accepts_iff ['a', 'b']).1.mpr ⟨by decide, by decide⟩

/-- Claim C9 counterexample: an iteration that saw one document with no
dirty snapshot (`to_persist = [(id, none)]`, so no document produced a
snapshot) sleeps only `PERSIST_INTERVAL + jitter`, without the extra
`PERSIST_INTERVAL` the claim requires. -/
theorem persister_sleep_counterexample :
    ([((idZeroBuf : List Nat), (none : Option PersistedDocumentV))].all
        (fun p => p.2.isNone)) = true ∧
    persisterSleepMs [(idZeroBuf, none)] 0 = PERSIST_INTERVAL_MS ∧
    PERSIST_INTERVAL_MS ≠ PERSIST_INTERVAL_MS + 0 + PERSIST_INTERVAL_MS := by
  refine ⟨rfl, rfl, by decide⟩

/-- Claim C9 (amended): each persister iteration sleeps `PERSIST_INTERVAL`
plus the uniformly drawn jitter in `[0, PERSIST_INTERVAL_JITTER)`, and the
sleep is extended by one additional `PERSIST_INTERVAL` exactly when the
walk of the document map collected no entries at all — not merely when no
document produced a dirty snapshot. -/
theorem persister_sleep_rule (tp : List (List Nat × Option PersistedDocumentV))
    (j : Nat) (h : j < PERSIST_INTERVAL_JITTER_MS) :
    (persisterSleepMs tp j = PERSIST_INTERVAL_MS + j + PERSIST_INTERVAL_MS ↔ tp = []) ∧
    (tp ≠ [] → persisterSleepMs tp j = PERSIST_INTERVAL_MS + j) ∧
    persisterSleepMs tp j <
      PERSIST_INTERVAL_MS + PERSIST_INTERVAL_JITTER_MS + PERSIST_INTERVAL_MS := by
  have hj : j < 6000 := by
    simpa [PERSIST_INTERVAL_JITTER_MS] using h
  cases tp <;>
    simp [persisterSleepMs, PERSIST_INTERVAL_MS, PERSIST_INTERVAL_JITTER_MS] <;>
    omega

theorem persister_sleep_rule_witness :
    persisterSleepMs [] 0 = PERSIST_INTERVAL_MS + 0 + PERSIST_INTERVAL_MS :=
  (persister_sleep_rule [] 0 (by decide)).1.mpr rfl
